import Mathlib

/-!
Verification of the toraheval repository: a shallow embedding of its
target/evaluator registries, dataset builder, and target functions, with
theorems settling the frozen claims about them.

Python conventions used throughout the embedding:
* a dict key that may be absent is an `Option` field (`none` = key missing);
* a function that may raise returns `Except PyErr _`; code with no handler
  propagates the error, a `try/except` converts it per the handler;
* external library calls (the Anthropic client, `requests.post`, the MCP
  tool session, `json.dumps`) are passed in as explicit parameters, so a
  theorem quantifying over them covers every behaviour of the external world.
-/

set_option autoImplicit false

namespace TorahEval

/-- Python's `in` operator on strings: `pat in s` is substring containment. -/
def strContains (s pat : String) : Bool :=
  decide (pat.toList <:+: s.toList)

/-- Python's `str.lower`, as a per-character map (the questions and keyword
tables in this repository are matched case-insensitively through it). -/
def pyLower (s : String) : String := ⟨s.data.map Char.toLower⟩

/-- Python's `str.strip`: drop whitespace from both ends. -/
def pyStrip (s : String) : String :=
  ⟨((s.data.dropWhile Char.isWhitespace).reverse.dropWhile Char.isWhitespace).reverse⟩

/-- The Python exceptions the embedded code can raise or propagate. -/
inductive PyErr where
  | keyError (key : String)
  | indexError
  | exc (msg : String)
deriving DecidableEq, Repr

/-- An `inputs` dict as the targets receive it: the `question` key may be
absent (`none`). -/
structure Inputs where
  question : Option String
deriving DecidableEq, Repr

/-- An output dict with a string `answer` field. -/
structure Output where
  answer : String
deriving DecidableEq, Repr

/-! ## `src/targets/simple_target.py` -/

/-- `simple_template_response`: look the lowercased question up against the
ordered keyword tests and return the first matching canned answer, else the
generic fallback. `inputs["question"]` raises `KeyError` when the key is
missing. -/
def simple_template_response (inputs : Inputs) : Except PyErr Output :=
  match inputs.question with
  | none => .error (.keyError "question")
  | some q =>
    let question := pyLower q
    if strContains question "divrei yoel" || strContains question "divrey yoel" then
      .ok ⟨"This question relates to Divrei Yoel, a collection of Hasidic teachings. I would need to consult the specific text to provide an accurate answer."⟩
    else if strContains question "moses" || strContains question "moshe" then
      .ok ⟨"This question concerns Moses (Moshe Rabbenu), the greatest of the prophets and leader of the Jewish people."⟩
    else if strContains question "prayer" || strContains question "tefillah" then
      .ok ⟨"This relates to Jewish prayer and spiritual practice. Prayer is a fundamental aspect of Jewish worship."⟩
    else
      .ok ⟨"This appears to be a Torah-related question that would require careful study of the relevant sources to answer properly."⟩

/-- The spec's reference description of the template target (section 4.4): an
ordered table of keyword rules; the first rule any of whose keywords occurs in
the lowercased question supplies the canned answer, else the fallback. -/
def templateRules : List (List String × String) :=
  [(["divrei yoel", "divrey yoel"],
    "This question relates to Divrei Yoel, a collection of Hasidic teachings. I would need to consult the specific text to provide an accurate answer."),
   (["moses", "moshe"],
    "This question concerns Moses (Moshe Rabbenu), the greatest of the prophets and leader of the Jewish people."),
   (["prayer", "tefillah"],
    "This relates to Jewish prayer and spiritual practice. Prayer is a fundamental aspect of Jewish worship.")]

/-- The template target's generic fallback answer. -/
def templateFallback : String :=
  "This appears to be a Torah-related question that would require careful study of the relevant sources to answer properly."

/-- Reference (spec-side) definition of the template target, for the
refinement claim: first-match lookup over `templateRules`. -/
def simple_template_spec (inputs : Inputs) : Except PyErr Output :=
  match inputs.question with
  | none => .error (.keyError "question")
  | some q =>
    let question := pyLower q
    match templateRules.find? (fun r => r.1.any (fun k => strContains question k)) with
    | some r => .ok ⟨r.2⟩
    | none => .ok ⟨templateFallback⟩

/-! ## `src/targets/__init__.py` — the target registry -/

/-- Tags standing for the four callables registered in `TARGET_FUNCTIONS`. -/
inductive TargetFn where
  | anthropicTorahQa
  | anthropicTorahQaHaiku
  | simpleTemplateResponse
  | ituriaJsApi
deriving DecidableEq, Repr

/-- The `TARGET_FUNCTIONS` dict (insertion order preserved, keys unique). -/
def TARGET_FUNCTIONS : List (String × TargetFn) :=
  [("anthropic_sonnet", .anthropicTorahQa),
   ("anthropic_haiku", .anthropicTorahQaHaiku),
   ("simple_template", .simpleTemplateResponse),
   ("ituria_js_api", .ituriaJsApi)]

/-- The message of the `ValueError` raised for an unknown target name:
`available` is `", ".join(TARGET_FUNCTIONS.keys())`. -/
def targetNotFoundMsg (name : String) : String :=
  "Target function '" ++ name ++ "' not found. Available: " ++
    String.intercalate ", " (TARGET_FUNCTIONS.map Prod.fst)

/-- `get_target_function`: dict lookup, raising `ValueError` with the
enumerating message when the name is not registered. -/
def get_target_function (name : String) : Except String TargetFn :=
  match TARGET_FUNCTIONS.lookup name with
  | none => .error (targetNotFoundMsg name)
  | some f => .ok f

/-! ## `src/evaluators.py` — the evaluator registry -/

/-- Tags standing for the five callables registered in `EVALUATOR_FUNCTIONS`. -/
inductive EvaluatorFn where
  | correctnessEvaluator
  | helpfulnessEvaluator
  | torahCitationEvaluator
  | hebrewHandlingEvaluator
  | depthAnalysisEvaluator
deriving DecidableEq, Repr

/-- The `EVALUATOR_FUNCTIONS` dict (insertion order preserved, keys unique). -/
def EVALUATOR_FUNCTIONS : List (String × EvaluatorFn) :=
  [("correctness", .correctnessEvaluator),
   ("helpfulness", .helpfulnessEvaluator),
   ("torah_citations", .torahCitationEvaluator),
   ("hebrew_handling", .hebrewHandlingEvaluator),
   ("depth_analysis", .depthAnalysisEvaluator)]

/-- The message of the `ValueError` raised for an unknown evaluator name. -/
def evaluatorNotFoundMsg (name : String) : String :=
  "Evaluator '" ++ name ++ "' not found. Available: " ++
    String.intercalate ", " (EVALUATOR_FUNCTIONS.map Prod.fst)

/-- The loop of `get_evaluators` over an explicit name list: append the
registered function for each name, raising at the first unknown name. -/
def get_evaluators_loop : List String → Except String (List EvaluatorFn)
  | [] => .ok []
  | name :: rest =>
    match EVALUATOR_FUNCTIONS.lookup name with
    | none => .error (evaluatorNotFoundMsg name)
    | some f =>
      match get_evaluators_loop rest with
      | .error e => .error e
      | .ok evs => .ok (f :: evs)

/-- `get_evaluators(names=None)`: all registered evaluators when `names` is
`None`, else the loop over the given list. -/
def get_evaluators (names : Option (List String)) : Except String (List EvaluatorFn) :=
  match names with
  | none => .ok (EVALUATOR_FUNCTIONS.map Prod.snd)
  | some ns => get_evaluators_loop ns

/-! ## `src/dataset/convert_csv_to_json.py` -/

/-- One CSV row as `csv.DictReader` exposes it. `none` models a missing key.
The question column of the source CSV is named `"Original Query "` (with a
trailing space); `source` is the optional `"Source"` column. -/
structure CsvRow where
  originalQuery : Option String
  targetText : Option String
  queryType : Option String
  source : Option String
deriving DecidableEq, Repr

/-- Python truthiness of `row.get(key)` for a string-valued column: falsy when
the key is missing or the value is the empty string. -/
def truthy : Option String → Bool
  | none => false
  | some s => !(s == "")

/-- One converted dataset entry: `{"inputs": {"question": …}, "outputs":
{"answer": …}}`. -/
structure Entry where
  question : String
  answer : String
deriving DecidableEq, Repr

/-- The JSON entry built for a kept row: stripped question, stripped target
text with the source citation appended after a blank line when present. -/
def mkEntry (row : CsvRow) : Entry :=
  { question := pyStrip (row.originalQuery.getD ""),
    answer := pyStrip (row.targetText.getD "") ++
      (if truthy row.source then "\n\n" ++ row.source.getD "" else "") }

/-- Whether `convert_csv_to_json` keeps a row: non-empty question and target
text, and `Query Type` equal to `"1"`. -/
def keepRow (row : CsvRow) : Bool :=
  truthy row.originalQuery && truthy row.targetText && (row.queryType == some "1")

/-- The row loop of `convert_csv_to_json`, on the parsed row sequence (the
CSV/JSON file I/O around it is elided): skip rows with a falsy question or
target text, skip rows whose `Query Type` is not `"1"`, append an entry for
the rest, in input order. -/
def convert_csv_to_json : List CsvRow → List Entry
  | [] => []
  | row :: rest =>
    if !truthy row.originalQuery || !truthy row.targetText then
      convert_csv_to_json rest
    else if row.queryType != some "1" then
      convert_csv_to_json rest
    else
      mkEntry row :: convert_csv_to_json rest

/-! ## `src/targets/anthropic_targets.py` -/

/-- One content block of a model response: Python branches on
`hasattr(content, "text")`. -/
inductive ModelContent where
  | text (t : String)
  | other (repr : String)
deriving DecidableEq, Repr

/-- A model response as the targets read it: its `content` list. -/
structure ModelResponse where
  content : List ModelContent
deriving DecidableEq, Repr

/-- The wrapped Anthropic client call, `(model, question) ↦` response or
raised exception, passed in explicitly. -/
def ModelCall : Type := String → String → Except PyErr ModelResponse

/-- `anthropic_torah_qa`: call the Sonnet model with the fixed system prompt
and the question. The source installs no exception handler, so a raised
exception propagates; `response.content[0]` raises `IndexError` on an empty
content list. -/
def anthropic_torah_qa (call : ModelCall) (inputs : Inputs) : Except PyErr Output :=
  match inputs.question with
  | none => .error (.keyError "question")
  | some q =>
    match call "claude-3-5-sonnet-20241022" q with
    | .error e => .error e
    | .ok response =>
      match response.content with
      | [] => .error .indexError
      | c :: _ =>
        match c with
        | .text t => .ok ⟨pyStrip t⟩
        | .other r => .ok ⟨pyStrip r⟩

/-- `anthropic_torah_qa_haiku`: identical body with the Haiku model name. -/
def anthropic_torah_qa_haiku (call : ModelCall) (inputs : Inputs) : Except PyErr Output :=
  match inputs.question with
  | none => .error (.keyError "question")
  | some q =>
    match call "claude-3-haiku-20240307" q with
    | .error e => .error e
    | .ok response =>
      match response.content with
      | [] => .error .indexError
      | c :: _ =>
        match c with
        | .text t => .ok ⟨pyStrip t⟩
        | .other r => .ok ⟨pyStrip r⟩

/-! ## `src/targets/ituria_js_api_target.py` and
`src/targets/anthropic_js_api_target.py` -/

/-- A Python value in an `answer` field. The sources normally build a string,
but the ituria proxy's connection-error branch builds a 2-tuple of strings
(two comma-separated parenthesised literals). -/
inductive PyVal where
  | str (s : String)
  | pair (a b : String)
deriving DecidableEq, Repr

/-- A decoded chat response body as the proxies read it: `data["answer"]`
(`none` = key absent, raising `KeyError`) and the optional
`"usage_metadata"` entry. -/
structure ChatBody where
  answer : Option String
  usage_metadata : Option String
deriving DecidableEq, Repr

/-- Outcome of the `requests.post` call, passed in explicitly: the exception
kinds the sources handle, or a response with status code, text, and the
result of `.json()` (`.error m` = decoding raised, message `m`). -/
inductive HttpOutcome where
  | connectionError
  | timeout
  | otherException (msg : String)
  | response (status : Nat) (text : String) (json : Except String ChatBody)
deriving Repr

/-- Output dict of the ituria JS proxy: only an `answer` key. -/
structure IturiaJsOutput where
  answer : PyVal
deriving DecidableEq, Repr

/-- Output dict of the anthropic JS proxy: `answer` plus pass-through
`usage_metadata` when the response body carries one. -/
structure AnthropicJsOutput where
  answer : PyVal
  usage_metadata : Option String
deriving DecidableEq, Repr

/-- `ituria_js_api_target`: read `inputs["question"]` (KeyError propagates —
it stands before the `try`), then convert every `requests.post` failure into
an answer record. The connection-error branch of the source builds a tuple of
two strings, not one string. `"Error: 'answer'"` is `"Error: " + str(e)` for
the `KeyError` raised by `data["answer"]`. -/
def ituria_js_api_target (post : HttpOutcome) (inputs : Inputs) :
    Except PyErr IturiaJsOutput :=
  match inputs.question with
  | none => .error (.keyError "question")
  | some _ =>
    .ok (match post with
      | .response status text json =>
        if status == 200 then
          match json with
          | .error m => ⟨.str ("Error: " ++ m)⟩
          | .ok data =>
            match data.answer with
            | none => ⟨.str "Error: 'answer'"⟩
            | some a => ⟨.str a⟩
        else
          ⟨.str ("API Error " ++ toString status ++ ": " ++ text)⟩
      | .connectionError =>
        ⟨.pair "Error: Could not connect to Ituria JavaScript API server. "
            "Make sure it's running on localhost:8333 (PORT=8333 npm start)"⟩
      | .timeout => ⟨.str "Error: API request timed out (exceeded 30 min.)"⟩
      | .otherException m => ⟨.str ("Error: " ++ m)⟩)

/-- `anthropic_js_api_target`: same shape as the ituria proxy (port 8334,
5-minute timeout), with `usage_metadata` passed through on success and a
single-string connection-error answer. -/
def anthropic_js_api_target (post : HttpOutcome) (inputs : Inputs) :
    Except PyErr AnthropicJsOutput :=
  match inputs.question with
  | none => .error (.keyError "question")
  | some _ =>
    .ok (match post with
      | .response status text json =>
        if status == 200 then
          match json with
          | .error m => ⟨.str ("Error: " ++ m), none⟩
          | .ok data =>
            match data.answer with
            | none => ⟨.str "Error: 'answer'", none⟩
            | some a => ⟨.str a, data.usage_metadata⟩
        else
          ⟨.str ("API Error " ++ toString status ++ ": " ++ text), none⟩
      | .connectionError =>
        ⟨.str "Error: Could not connect to Anthropic JavaScript API server. Make sure it's running on localhost:8334 (PORT=8334 npm start)", none⟩
      | .timeout => ⟨.str "Error: API request timed out (exceeded 5 min.)", none⟩
      | .otherException m => ⟨.str ("Error: " ++ m), none⟩)

/-! ## `src/targets/ituria_target.py` — the multi-phase retrieval agent

The MCP client methods (`semantic_search`, `keywords_search`, `read_text`,
`get_commentaries`) each catch their own exceptions and return either
`{"error": msg}` or `{"result": result}`; they are modelled as total
functions of the environment returning `ToolResult`. Tool results are
modelled in the dictionary shape the orchestration code reads from them: an
optional `content` list of items that optionally carry a `reference` string.
`json.dumps` of a tool result is an external call and is a parameter of the
environment. -/

/-- One item of a search result's `content` list. -/
structure Item where
  reference : Option String
deriving DecidableEq, Repr

/-- The `result` value of a successful tool call, as read by the agent. -/
structure ToolOk where
  content : Option (List Item)
deriving DecidableEq, Repr

/-- A tool call's return dict: `{"error": msg}` or `{"result": result}`. -/
inductive ToolResult where
  | error (msg : String)
  | ok (r : ToolOk)
deriving DecidableEq, Repr

/-- The external world of one agent invocation: whether `connect()` succeeds,
the four tool calls, and `json.dumps` on tool results. -/
structure MCPEnv where
  connectOk : Bool
  semantic_search : String → Nat → ToolResult
  keywords_search : String → String → Nat → ToolResult
  read_text : String → ToolResult
  get_commentaries : String → ToolResult
  dumpJson : ToolResult → String

/-- `convert_to_hebrew_keywords`'s fixed bilingual table, in source order. -/
def keyword_mapping : List (String × String) :=
  [("prayer", "תפילה"), ("shabbat", "שבת"), ("sabbath", "שבת"),
   ("kasher", "כשר"), ("kosher", "כשר"), ("study", "לימוד"),
   ("torah", "תורה"), ("talmud", "תלמוד"), ("rabbi", "רב"),
   ("synagogue", "בית כנסת"), ("moses", "משה"), ("law", "הלכה"),
   ("ethics", "מוסר"), ("business", "משא ומתן"), ("charity", "צדקה"),
   ("blessing", "ברכה"), ("holiday", "חג"), ("fast", "צום"),
   ("marriage", "נישואין"), ("divorce", "גירושין")]

/-- `convert_to_hebrew_keywords`: collect the Hebrew term of every English
key occurring in the lowercased query, joined with `" AND "`; the broad
default query when none matches. -/
def convert_to_hebrew_keywords (english_query : String) : String :=
  let query_lower := pyLower english_query
  let hebrew_terms :=
    (keyword_mapping.filter (fun p => strContains query_lower p.1)).map Prod.snd
  if hebrew_terms ≠ [] then String.intercalate " AND " hebrew_terms
  else "הלכה OR מוסר OR תורה"

/-- Reference extraction from one search result: of the top 5 content items,
those carrying a `reference`, in order (the source does not deduplicate). -/
def extractRefs (res : ToolResult) : List String :=
  match res with
  | .error _ => []
  | .ok r =>
    match r.content with
    | some items => (items.take 5).filterMap (fun i => i.reference)
    | none => []

/-- Phase 1 of `ituria_agent_search`: the semantic search (limit 20), then
the keywords search on the derived Hebrew terms (topics `"הלכה"`, 40
results); an errored search contributes nothing. Returns
`(search_results, semantic references, keyword references)`. -/
def phase1 (env : MCPEnv) (query : String) :
    List String × List String × List String :=
  let semantic_result := env.semantic_search query 20
  let (sr1, refs1) :=
    match semantic_result with
    | .error _ => ([], [])
    | .ok _ =>
      (["Semantic search results: " ++ env.dumpJson semantic_result],
       extractRefs semantic_result)
  let hebrew_keywords := convert_to_hebrew_keywords query
  let (sr2, refs2) :=
    if hebrew_keywords ≠ "" then
      let keywords_result := env.keywords_search hebrew_keywords "הלכה" 40
      match keywords_result with
      | .error _ => ([], [])
      | .ok _ =>
        (["Keywords search results: " ++ env.dumpJson keywords_result],
         extractRefs keywords_result)
    else ([], [])
  (sr1 ++ sr2, refs1, refs2)

/-- Phases 2–3 prologue: the loop over `references_to_read[:8]` — read each
reference; on success append its full text and mark it for commentary
lookup, on error skip it. Returns `(full_texts, commentaries_to_read)`. -/
def phase2 (env : MCPEnv) : List String → List String × List String
  | [] => ([], [])
  | ref :: rest =>
    let (fts, cms) := phase2 env rest
    match env.read_text ref with
    | .error _ => (fts, cms)
    | .ok r =>
      (("Full text of " ++ ref ++ ": " ++ env.dumpJson (.ok r)) :: fts,
       ref :: cms)

/-- Phase 4 inner loop over `content[:2]` of one commentary result: for each
item carrying a reference, read its full text; an errored read is skipped.
Returns `(commentary text lines, references submitted to read_text)`. -/
def readTopCommentaries (env : MCPEnv) : List Item → List String × List String
  | [] => ([], [])
  | item :: rest =>
    let (texts, reads) := readTopCommentaries env rest
    match item.reference with
    | none => (texts, reads)
    | some commentary_ref =>
      match env.read_text commentary_ref with
      | .error _ => (texts, commentary_ref :: reads)
      | .ok r =>
        (("Commentary text " ++ commentary_ref ++ ": " ++ env.dumpJson (.ok r)) :: texts,
         commentary_ref :: reads)

/-- Phases 3–4: the loop over `commentaries_to_read[:5]` — get commentaries
for each reference (an errored lookup is skipped), and recursively read the
top-2 commentary hits. Returns `(commentaries_list, per-reference commentary
reads)`. -/
def phase34 (env : MCPEnv) :
    List String → List String × List (String × List String)
  | [] => ([], [])
  | ref :: rest =>
    let (restList, restReads) := phase34 env rest
    match env.get_commentaries ref with
    | .error _ => (restList, restReads)
    | .ok c =>
      let items := match c.content with | some l => l.take 2 | none => []
      let (texts, reads) := readTopCommentaries env items
      ((("Commentaries for " ++ ref ++ ": " ++ env.dumpJson (.ok c)) :: texts)
         ++ restList,
       (ref, reads) :: restReads)

/-- Rendering of one string of the final `json.dumps` result (escaping
reduced to quote and backslash). -/
def dumpStr (s : String) : String :=
  "\"" ++ ((s.replace "\\" "\\\\").replace "\"" "\\\"") ++ "\""

/-- Rendering of one string list of the final `json.dumps` result. -/
def dumpStrList (l : List String) : String :=
  "[" ++ String.intercalate ", " (l.map dumpStr) ++ "]"

/-- Modelled rendering of `json.dumps(all_results, ensure_ascii=False,
indent=2)`: a brace-delimited JSON object whose three keys come in insertion
order. -/
def dumpsAllResults (search_results full_texts commentaries : List String) : String :=
  "\x7b\"search_results\": " ++ dumpStrList search_results ++
    ", \"full_texts\": " ++ dumpStrList full_texts ++
    ", \"commentaries\": " ++ dumpStrList commentaries ++ "\x7d"

/-- Everything the four phases accumulate in one invocation. -/
structure AgentTrace where
  search_results : List String
  semanticRefs : List String
  keywordRefs : List String
  references_to_read : List String
  refsSubmitted : List String
  full_texts : List String
  commentaries_to_read : List String
  commentaryLookups : List String
  commentaries_list : List String
  commentaryReads : List (String × List String)
deriving DecidableEq, Repr

/-- The connection state of a `JewishLibraryMCPClient`: whether the MCP
`ClientSession` is entered, and whether the stdio transport context
(`stdio_client(...).__aenter__()`, the subprocess channel) is entered. -/
structure ClientState where
  sessionOpen : Bool
  transportOpen : Bool
deriving DecidableEq, Repr

/-- `JewishLibraryMCPClient.close`: exits the `ClientSession`; the branch for
the stdio transport is `pass` (its context manager object was never stored),
so the transport is left as it was. -/
def closeClient (s : ClientState) : ClientState :=
  { sessionOpen := false, transportOpen := s.transportOpen }

/-- Result of one `ituria_agent_search` invocation: the returned string, the
accumulated trace (`none` when connect failed), and the client's final
connection state. -/
structure AgentRun where
  answer : String
  trace : Option AgentTrace
  finalState : ClientState
deriving Repr

/-- The body of `ituria_agent_search` inside its `try`: the four phases in
order, ending in the serialized evidence blob. -/
def agentBody (env : MCPEnv) (query : String) : String × AgentTrace :=
  let (search_results, semanticRefs, keywordRefs) := phase1 env query
  let references_to_read := semanticRefs ++ keywordRefs
  let refsSubmitted := references_to_read.take 8
  let (full_texts, commentaries_to_read) := phase2 env refsSubmitted
  let commentaryLookups := commentaries_to_read.take 5
  let (commentaries_list, commentaryReads) := phase34 env commentaryLookups
  (dumpsAllResults search_results full_texts commentaries_list,
   ⟨search_results, semanticRefs, keywordRefs, references_to_read,
    refsSubmitted, full_texts, commentaries_to_read, commentaryLookups,
    commentaries_list, commentaryReads⟩)

/-- `ituria_agent_search`: connect; on failure return the failure message
with nothing run; on success run the four phases inside `try` and call
`close()` in the `finally`. -/
def ituria_agent_search (env : MCPEnv) (query : String) : AgentRun :=
  if env.connectOk then
    let connected : ClientState := ⟨true, true⟩
    let (ans, tr) := agentBody env query
    { answer := ans, trace := some tr, finalState := closeClient connected }
  else
    { answer := "Failed to connect to Jewish Library MCP server",
      trace := none, finalState := ⟨false, false⟩ }

/-! ## Theorems -/

/-- A substring of `b` is a substring of `a ++ b`. -/
theorem strContains_append_right (a b k : String) (h : strContains b k = true) :
    strContains (a ++ b) k = true := by
  have h' := of_decide_eq_true h
  apply decide_eq_true
  have hd : (a ++ b).toList = a.toList ++ b.toList := by simp [String.toList]
  rw [hd]
  exact h'.trans (List.suffix_append a.toList b.toList).isInfix

/-- C3: a lookup of an unregistered name fails on both registries —
`get_target_function` raises with the enumerating message, and
`get_evaluators` raises at the first unknown name of its list — and each
registered name appears in the error message. -/
theorem registry_unknown_name_errors :
    (∀ name, TARGET_FUNCTIONS.lookup name = none →
      get_target_function name = .error (targetNotFoundMsg name) ∧
      ∀ k ∈ TARGET_FUNCTIONS.map Prod.fst,
        strContains (targetNotFoundMsg name) k = true) ∧
    (∀ (pre : List String) (bad : String) (rest : List String),
      (∀ n ∈ pre, (EVALUATOR_FUNCTIONS.lookup n).isSome) →
      EVALUATOR_FUNCTIONS.lookup bad = none →
      get_evaluators (some (pre ++ bad :: rest)) = .error (evaluatorNotFoundMsg bad) ∧
      ∀ k ∈ EVALUATOR_FUNCTIONS.map Prod.fst,
        strContains (evaluatorNotFoundMsg bad) k = true) := by
  constructor
  · intro name h
    constructor
    · simp [get_target_function, h]
    · intro k hk
      have hmsg : targetNotFoundMsg name =
          (("Target function '" ++ name) ++ "' not found. Available: ") ++
            String.intercalate ", " (TARGET_FUNCTIONS.map Prod.fst) := rfl
      rw [hmsg]
      apply strContains_append_right
      simp only [TARGET_FUNCTIONS, List.map, List.mem_cons,
        List.not_mem_nil, or_false] at hk
      rcases hk with rfl | rfl | rfl | rfl
      · decide
      · decide
      · decide
      · decide
  · intro pre bad rest hpre hbad
    constructor
    · show get_evaluators_loop (pre ++ bad :: rest) = _
      induction pre with
      | nil => simp [get_evaluators_loop, hbad]
      | cons n ns ih =>
        have hn := hpre n (by simp)
        rcases Option.isSome_iff_exists.mp hn with ⟨f, hf⟩
        simp only [List.cons_append, get_evaluators_loop, hf, List.append_eq]
        rw [ih (fun m hm => hpre m (by simp [hm]))]
    · intro k hk
      have hmsg : evaluatorNotFoundMsg bad =
          (("Evaluator '" ++ bad) ++ "' not found. Available: ") ++
            String.intercalate ", " (EVALUATOR_FUNCTIONS.map Prod.fst) := rfl
      rw [hmsg]
      apply strContains_append_right
      simp only [EVALUATOR_FUNCTIONS, List.map, List.mem_cons,
        List.not_mem_nil, or_false] at hk
      rcases hk with rfl | rfl | rfl | rfl | rfl
      · decide
      · decide
      · decide
      · decide
      · decide

/-- C3 witness: concrete unknown names fail with the enumerating errors. -/
theorem registry_unknown_name_errors_witness :
    get_target_function "nope" = .error (targetNotFoundMsg "nope") ∧
    get_evaluators (some (["correctness"] ++ "nope" :: [])) =
      .error (evaluatorNotFoundMsg "nope") :=
  ⟨(registry_unknown_name_errors.1 "nope" rfl).1,
   (registry_unknown_name_errors.2 ["correctness"] "nope" []
      (by intro n hn; simp at hn; subst hn; rfl) rfl).1⟩

/-- C4 counterexample: an empty (but present) name list yields the empty
evaluator list, not every registered evaluator. -/
theorem get_evaluators_empty_list :
    get_evaluators (some []) = .ok [] ∧
    get_evaluators (some []) ≠ .ok (EVALUATOR_FUNCTIONS.map Prod.snd) := by
  refine ⟨rfl, ?_⟩
  intro h
  rw [show get_evaluators (some []) = .ok [] from rfl] at h
  have := Except.ok.inj h
  simp [EVALUATOR_FUNCTIONS] at this

/-- C4 amended: `get_evaluators` returns every registered evaluator when
`names` is absent (`None`); an explicitly empty list yields the empty list;
and a list of registered names resolves to exactly their evaluators, in list
order. -/
theorem get_evaluators_resolution :
    get_evaluators none = .ok (EVALUATOR_FUNCTIONS.map Prod.snd) ∧
    get_evaluators (some []) = .ok [] ∧
    ∀ (names : List String) (evs : List EvaluatorFn),
      names.mapM (fun n => EVALUATOR_FUNCTIONS.lookup n) = some evs →
      get_evaluators (some names) = .ok evs := by
  refine ⟨rfl, rfl, ?_⟩
  intro names
  induction names with
  | nil =>
    intro evs h
    simp only [List.mapM_nil, Option.pure_def, Option.some.injEq] at h
    subst h
    rfl
  | cons n ns ih =>
    intro evs h
    simp only [List.mapM_cons, Option.pure_def, Option.bind_eq_bind,
      Option.bind_eq_some, Option.some.injEq] at h
    rcases h with ⟨f, hf, evs', hevs', rfl⟩
    have := ih evs' hevs'
    show get_evaluators_loop (n :: ns) = _
    simp only [get_evaluators_loop, hf]
    rw [show get_evaluators_loop ns = .ok evs' from this]

/-- C4 witness: a concrete two-name list resolves in order. -/
theorem get_evaluators_resolution_witness :
    get_evaluators (some ["helpfulness", "correctness"]) =
      .ok [.helpfulnessEvaluator, .correctnessEvaluator] :=
  get_evaluators_resolution.2.2 ["helpfulness", "correctness"]
    [.helpfulnessEvaluator, .correctnessEvaluator] rfl

/-- C5: the dataset builder keeps exactly the rows with a truthy question, a
truthy target text and `Query Type` `"1"`, in input order; a row with
`Query Type` `"2"` is never kept. -/
theorem convert_csv_filters (rows : List CsvRow) :
    convert_csv_to_json rows = (rows.filter keepRow).map mkEntry ∧
    ∀ row : CsvRow, row.queryType = some "2" → keepRow row = false := by
  constructor
  · induction rows with
    | nil => rfl
    | cons row rest ih =>
      cases h1 : truthy row.originalQuery <;>
        cases h2 : truthy row.targetText <;>
          cases h3 : (row.queryType == some "1") <;>
            simp [convert_csv_to_json, keepRow, List.filter_cons, h1, h2, h3, ih, bne]
  · intro row h
    simp [keepRow, h]

/-- C5 witness: a two-row input where the second row's `Query Type` is `"2"`;
only the first row survives, and the type-2 row fails `keepRow`. -/
theorem convert_csv_filters_witness :
    convert_csv_to_json
        [⟨some "q1", some "a1", some "1", none⟩,
         ⟨some "q2", some "a2", some "2", some "src"⟩] =
      ([⟨some "q1", some "a1", some "1", none⟩,
        ⟨some "q2", some "a2", some "2", some "src"⟩].filter keepRow).map mkEntry ∧
    keepRow ⟨some "q2", some "a2", some "2", some "src"⟩ = false :=
  ⟨(convert_csv_filters
      [⟨some "q1", some "a1", some "1", none⟩,
       ⟨some "q2", some "a2", some "2", some "src"⟩]).1,
   (convert_csv_filters []).2 ⟨some "q2", some "a2", some "2", some "src"⟩ rfl⟩

/-- C7: the template target equals the spec's ordered-rule-table reference
definition on every input; `{"question": "Who was Moses?"}` yields exactly
the canned Moses answer; and only the letter case of the question never
changes the answer. (Purity — identical inputs, identical outputs — is
definitional: the embedded function is a function.) -/
theorem simple_template_matches_spec (inputs : Inputs) (q q' : String) :
    simple_template_response inputs = simple_template_spec inputs ∧
    simple_template_response ⟨some "Who was Moses?"⟩ =
      .ok ⟨"This question concerns Moses (Moshe Rabbenu), the greatest of the prophets and leader of the Jewish people."⟩ ∧
    (pyLower q = pyLower q' →
      simple_template_response ⟨some q⟩ = simple_template_response ⟨some q'⟩) := by
  refine ⟨?_, by rfl, ?_⟩
  · rcases inputs with ⟨_ | q0⟩
    · rfl
    · simp only [simple_template_response, simple_template_spec, templateRules,
        List.find?_cons, List.find?_nil, List.any_cons, List.any_nil,
        Bool.or_false]
      cases strContains (pyLower q0) "divrei yoel" <;>
        cases strContains (pyLower q0) "divrey yoel" <;>
          cases strContains (pyLower q0) "moses" <;>
            cases strContains (pyLower q0) "moshe" <;>
              cases strContains (pyLower q0) "prayer" <;>
                cases strContains (pyLower q0) "tefillah" <;> rfl
  · intro h
    simp only [simple_template_response]
    rw [h]

/-- C7 witness: the refinement and case-insensitivity at concrete questions. -/
theorem simple_template_matches_spec_witness :
    simple_template_response ⟨some "About PRAYER"⟩ =
      simple_template_spec ⟨some "About PRAYER"⟩ ∧
    simple_template_response ⟨some "About PRAYER"⟩ =
      simple_template_response ⟨some "about prayer"⟩ :=
  ⟨(simple_template_matches_spec ⟨some "About PRAYER"⟩ "x" "x").1,
   (simple_template_matches_spec ⟨none⟩ "About PRAYER" "about prayer").2.2
     (by decide)⟩

/-- C1 counterexample: with a model call that raises, `anthropic_torah_qa`
does not return an error-text answer record — no `.ok` output exists; the
exception propagates. -/
theorem anthropic_qa_propagates_counterexample :
    anthropic_torah_qa (fun _ _ => .error (.exc "API down")) ⟨some "q"⟩ =
      .error (.exc "API down") ∧
    ¬ ∃ out, anthropic_torah_qa (fun _ _ => .error (.exc "API down")) ⟨some "q"⟩ =
      .ok out := by
  refine ⟨rfl, ?_⟩
  rintro ⟨out, h⟩
  simp [anthropic_torah_qa] at h

/-- C1 amended: the direct-model targets install no exception handler — when
the model call raises, the exception propagates to the caller unchanged; an
answer record comes back only from a successful call. -/
theorem anthropic_qa_propagates (call : ModelCall) (inputs : Inputs)
    (q : String) (e : PyErr) (hq : inputs.question = some q)
    (hc : ∀ model, call model q = .error e) :
    anthropic_torah_qa call inputs = .error e ∧
    anthropic_torah_qa_haiku call inputs = .error e := by
  obtain ⟨q0⟩ := inputs
  obtain rfl : q0 = some q := hq
  constructor <;> simp [anthropic_torah_qa, anthropic_torah_qa_haiku, hc]

/-- C1 witness: the propagation at a concrete raising call. -/
theorem anthropic_qa_propagates_witness :
    anthropic_torah_qa (fun _ _ => .error (.exc "boom")) ⟨some "hi"⟩ =
      .error (.exc "boom") ∧
    anthropic_torah_qa_haiku (fun _ _ => .error (.exc "boom")) ⟨some "hi"⟩ =
      .error (.exc "boom") :=
  anthropic_qa_propagates (fun _ _ => .error (.exc "boom")) ⟨some "hi"⟩ "hi"
    (.exc "boom") rfl (fun _ => rfl)

/-- C2: at a connection-refused outcome neither proxy raises, but the ituria
proxy's answer value is a tuple of two strings (the source's trailing-comma
slip), not a single diagnostic string; the anthropic proxy's is the single
string the claim describes. -/
theorem js_proxy_connection_refused_eval :
    ituria_js_api_target .connectionError ⟨some "q"⟩ =
      .ok ⟨.pair "Error: Could not connect to Ituria JavaScript API server. "
          "Make sure it's running on localhost:8333 (PORT=8333 npm start)"⟩ ∧
    anthropic_js_api_target .connectionError ⟨some "q"⟩ =
      .ok ⟨.str "Error: Could not connect to Anthropic JavaScript API server. Make sure it's running on localhost:8334 (PORT=8334 npm start)", none⟩ :=
  ⟨rfl, rfl⟩

/-- C10: with the `question` key missing, both HTTP proxies raise `KeyError`
(the key access stands before the `try` block); with the key present, every
`requests.post` outcome is converted into a normal `.ok` answer record. -/
theorem js_proxy_missing_question_raises (inputs inputs' : Inputs)
    (post post' p2 p2' : HttpOutcome) (q : String)
    (h : inputs.question = none) (h' : inputs'.question = some q) :
    ituria_js_api_target post inputs = .error (.keyError "question") ∧
    anthropic_js_api_target post' inputs = .error (.keyError "question") ∧
    (∃ out, ituria_js_api_target p2 inputs' = .ok out) ∧
    (∃ out, anthropic_js_api_target p2' inputs' = .ok out) := by
  obtain ⟨q0⟩ := inputs
  obtain rfl : q0 = none := h
  obtain ⟨q1⟩ := inputs'
  obtain rfl : q1 = some q := h'
  exact ⟨rfl, rfl, ⟨_, rfl⟩, ⟨_, rfl⟩⟩

/-- C10 witness: concrete inputs with and without the `question` key. -/
theorem js_proxy_missing_question_raises_witness :
    ituria_js_api_target .timeout ⟨none⟩ = .error (.keyError "question") ∧
    anthropic_js_api_target .timeout ⟨none⟩ = .error (.keyError "question") ∧
    (∃ out, ituria_js_api_target .timeout ⟨some "q"⟩ = .ok out) ∧
    (∃ out, anthropic_js_api_target .timeout ⟨some "q"⟩ = .ok out) :=
  js_proxy_missing_question_raises ⟨none⟩ ⟨some "q"⟩ .timeout .timeout
    .timeout .timeout "q" rfl rfl

/-- At most 5 references are extracted from one search result. -/
theorem extractRefs_length_le (res : ToolResult) : (extractRefs res).length ≤ 5 := by
  rcases res with m | r
  · simp [extractRefs]
  · rcases r with ⟨_ | items⟩
    · simp [extractRefs]
    · calc ((items.take 5).filterMap (fun i => i.reference)).length
          ≤ (items.take 5).length := List.length_filterMap_le _ _
        _ ≤ 5 := List.length_take_le _ _

/-- Each of the two phase-1 searches contributes at most 5 references. -/
theorem phase1_refs_length (env : MCPEnv) (query : String) :
    (phase1 env query).2.1.length ≤ 5 ∧ (phase1 env query).2.2.length ≤ 5 := by
  unfold phase1
  by_cases hk : convert_to_hebrew_keywords query ≠ "" <;>
    rcases hs : env.semantic_search query 20 with m | r <;>
      rcases hkr : env.keywords_search (convert_to_hebrew_keywords query) "הלכה" 40
        with m' | r' <;>
    simp [hs, hk, hkr, extractRefs_length_le]

/-- Phase 4 reads at most one commentary per content item. -/
theorem readTopCommentaries_reads_length (env : MCPEnv) (items : List Item) :
    (readTopCommentaries env items).2.length ≤ items.length := by
  induction items with
  | nil => simp [readTopCommentaries]
  | cons item rest ih =>
    simp only [readTopCommentaries]
    rcases h : readTopCommentaries env rest with ⟨texts, reads⟩
    rw [h] at ih
    simp only at ih ⊢
    rcases hi : item.reference with _ | cref
    · simpa using Nat.le_succ_of_le ih
    · rcases hr : env.read_text cref with m | r <;>
        simp only [hr, List.length_cons] <;> omega

/-- Every per-reference commentary read list of phases 3–4 has length ≤ 2. -/
theorem phase34_reads_bounded (env : MCPEnv) (l : List String) :
    ∀ p ∈ (phase34 env l).2, p.2.length ≤ 2 := by
  induction l with
  | nil => simp [phase34]
  | cons ref rest ih =>
    simp only [phase34]
    rcases h : phase34 env rest with ⟨restList, restReads⟩
    rw [h] at ih
    simp only at ih ⊢
    rcases hg : env.get_commentaries ref with m | c
    · exact ih
    · rcases c with ⟨content⟩
      intro p hp
      simp only [List.mem_cons] at hp
      rcases hp with rfl | hp
      · have hlen :
            (match (content : Option (List Item)) with
              | some l => l.take 2
              | none => ([] : List Item)).length ≤ 2 := by
          rcases content with _ | items
          · simp
          · exact List.length_take_le 2 items
        exact le_trans (readTopCommentaries_reads_length env _) hlen
      · exact ih p hp

/-- C6: one successful invocation at a concrete environment — the four
phases run, `close()` runs in the `finally` and exits the MCP session, yet
the stdio transport context entered by `connect` is still open afterwards:
the subprocess connection is not released. -/
theorem agent_close_leaves_transport_open :
    (ituria_agent_search
        { connectOk := true,
          semantic_search := fun _ _ => .ok ⟨some [⟨some "Genesis 1:1"⟩]⟩,
          keywords_search := fun _ _ _ => .error "e",
          read_text := fun _ => .error "e",
          get_commentaries := fun _ => .error "e",
          dumpJson := fun _ => "d" } "q").finalState =
      ⟨false, true⟩ := rfl

/-- The serialized evidence blob is never the empty string. -/
theorem dumpsAllResults_ne_empty (s f c : List String) :
    dumpsAllResults s f c ≠ "" := by
  intro h
  have hd := congrArg String.data h
  simp only [dumpsAllResults, String.data_append] at hd
  simp at hd

/-- When every `get_commentaries` call fails, phases 3–4 record nothing. -/
theorem phase34_all_error (env : MCPEnv)
    (hfail : ∀ ref, ∃ m, env.get_commentaries ref = .error m) :
    ∀ l : List String, phase34 env l = ([], []) := by
  intro l
  induction l with
  | nil => rfl
  | cons ref rest ih =>
    obtain ⟨m, hm⟩ := hfail ref
    simp [phase34, ih, hm]

/-- C8: when tool calls fail only in the commentary-retrieval phase (every
`get_commentaries` call errors), each failed commentary step is skipped —
recorded by omission — while phases 1–3 proceed, and the run still returns
the non-empty serialization of the phase-1–3 evidence with an empty
commentaries list. -/
theorem agent_commentary_failures_degrade (env : MCPEnv) (query : String)
    (hconn : env.connectOk = true)
    (hfail : ∀ ref, ∃ m, env.get_commentaries ref = .error m) :
    ∃ tr : AgentTrace,
      (ituria_agent_search env query).trace = some tr ∧
      tr.commentaries_list = [] ∧
      tr.commentaryReads = [] ∧
      (ituria_agent_search env query).answer =
        dumpsAllResults tr.search_results tr.full_texts [] ∧
      (ituria_agent_search env query).answer ≠ "" := by
  have h34 := phase34_all_error env hfail
  rcases h1 : phase1 env query with ⟨sr, srefs, krefs⟩
  rcases h2 : phase2 env ((srefs ++ krefs).take 8) with ⟨fts, cms⟩
  have hbody : agentBody env query =
      (dumpsAllResults sr fts [],
       ⟨sr, srefs, krefs, srefs ++ krefs, (srefs ++ krefs).take 8, fts, cms,
        cms.take 5, [], []⟩) := by
    simp [agentBody, h1, h2, h34]
  have hrun : ituria_agent_search env query =
      { answer := dumpsAllResults sr fts [],
        trace := some ⟨sr, srefs, krefs, srefs ++ krefs,
          (srefs ++ krefs).take 8, fts, cms, cms.take 5, [], []⟩,
        finalState := ⟨false, true⟩ } := by
    simp [ituria_agent_search, hconn, hbody, closeClient]
  refine ⟨⟨sr, srefs, krefs, srefs ++ krefs, (srefs ++ krefs).take 8, fts, cms,
    cms.take 5, [], []⟩, ?_, rfl, rfl, ?_, ?_⟩
  · rw [hrun]
  · rw [hrun]
  · rw [hrun]
    exact dumpsAllResults_ne_empty sr fts []

/-- C8 witness: a concrete environment whose `get_commentaries` always
fails. -/
theorem agent_commentary_failures_degrade_witness :
    ∃ tr : AgentTrace,
      (ituria_agent_search
          { connectOk := true,
            semantic_search := fun _ _ => .ok ⟨some [⟨some "Gen 1:1"⟩]⟩,
            keywords_search := fun _ _ _ => .ok ⟨none⟩,
            read_text := fun _ => .ok ⟨none⟩,
            get_commentaries := fun _ => .error "commentary backend down",
            dumpJson := fun _ => "J" } "q").trace = some tr ∧
      tr.commentaries_list = [] ∧
      tr.commentaryReads = [] ∧
      (ituria_agent_search
          { connectOk := true,
            semantic_search := fun _ _ => .ok ⟨some [⟨some "Gen 1:1"⟩]⟩,
            keywords_search := fun _ _ _ => .ok ⟨none⟩,
            read_text := fun _ => .ok ⟨none⟩,
            get_commentaries := fun _ => .error "commentary backend down",
            dumpJson := fun _ => "J" } "q").answer =
        dumpsAllResults tr.search_results tr.full_texts [] ∧
      (ituria_agent_search
          { connectOk := true,
            semantic_search := fun _ _ => .ok ⟨some [⟨some "Gen 1:1"⟩]⟩,
            keywords_search := fun _ _ _ => .ok ⟨none⟩,
            read_text := fun _ => .ok ⟨none⟩,
            get_commentaries := fun _ => .error "commentary backend down",
            dumpJson := fun _ => "J" } "q").answer ≠ "" :=
  agent_commentary_failures_degrade
    { connectOk := true,
      semantic_search := fun _ _ => .ok ⟨some [⟨some "Gen 1:1"⟩]⟩,
      keywords_search := fun _ _ _ => .ok ⟨none⟩,
      read_text := fun _ => .ok ⟨none⟩,
      get_commentaries := fun _ => .error "commentary backend down",
      dumpJson := fun _ => "J" } "q" rfl
    (fun _ => ⟨"commentary backend down", rfl⟩)

/-- C9 counterexample: when the semantic and the keyword search return the
same reference, the candidate list holds it twice — the collected references
are not distinct (the source never deduplicates them). -/
theorem agent_candidate_refs_not_distinct :
    ((ituria_agent_search
        { connectOk := true,
          semantic_search := fun _ _ => .ok ⟨some [⟨some "a"⟩]⟩,
          keywords_search := fun _ _ _ => .ok ⟨some [⟨some "a"⟩]⟩,
          read_text := fun _ => .error "e",
          get_commentaries := fun _ => .error "e",
          dumpJson := fun _ => "" } "q").trace.map
        (fun tr => tr.references_to_read)) = some ["a", "a"] ∧
    ¬ (["a", "a"] : List String).Nodup := by
  exact ⟨rfl, by decide⟩

/-- C9 amended: in every completed invocation, at most 5 references are
collected from each of the two phase-1 searches (the candidate list is their
concatenation, not deduplicated), at most 8 candidates are submitted to
full-text retrieval, at most 5 successfully-read references receive a
commentary lookup, and at most 2 top commentary hits per reference are read
in full. -/
theorem agent_phase_bounds (env : MCPEnv) (query : String) (tr : AgentTrace)
    (h : (ituria_agent_search env query).trace = some tr) :
    tr.semanticRefs.length ≤ 5 ∧
    tr.keywordRefs.length ≤ 5 ∧
    tr.references_to_read = tr.semanticRefs ++ tr.keywordRefs ∧
    tr.refsSubmitted = tr.references_to_read.take 8 ∧
    tr.refsSubmitted.length ≤ 8 ∧
    tr.commentaryLookups = tr.commentaries_to_read.take 5 ∧
    tr.commentaryLookups.length ≤ 5 ∧
    ∀ p ∈ tr.commentaryReads, p.2.length ≤ 2 := by
  cases hc : env.connectOk with
  | false => simp [ituria_agent_search, hc] at h
  | true =>
    rcases h1 : phase1 env query with ⟨sr, srefs, krefs⟩
    rcases h2 : phase2 env ((srefs ++ krefs).take 8) with ⟨fts, cms⟩
    rcases h3 : phase34 env (cms.take 5) with ⟨cl, creads⟩
    have hbody : agentBody env query =
        (dumpsAllResults sr fts cl,
         ⟨sr, srefs, krefs, srefs ++ krefs, (srefs ++ krefs).take 8, fts, cms,
          cms.take 5, cl, creads⟩) := by
      simp [agentBody, h1, h2, h3]
    rw [ituria_agent_search, hc, if_pos rfl, hbody] at h
    simp only [Option.some.injEq] at h
    subst h
    have hp1 := phase1_refs_length env query
    rw [h1] at hp1
    have hcr := phase34_reads_bounded env (cms.take 5)
    rw [h3] at hcr
    exact ⟨hp1.1, hp1.2, rfl, rfl, List.length_take_le _ _, rfl,
      List.length_take_le _ _, hcr⟩

/-- C9 witness: the bounds at a concrete environment (every tool call
errors, so every accumulated list is empty). -/
theorem agent_phase_bounds_witness :
    (AgentTrace.mk [] [] [] [] [] [] [] [] [] []).semanticRefs.length ≤ 5 ∧
    (AgentTrace.mk [] [] [] [] [] [] [] [] [] []).keywordRefs.length ≤ 5 ∧
    (AgentTrace.mk [] [] [] [] [] [] [] [] [] []).references_to_read =
      (AgentTrace.mk [] [] [] [] [] [] [] [] [] []).semanticRefs ++
        (AgentTrace.mk [] [] [] [] [] [] [] [] [] []).keywordRefs ∧
    (AgentTrace.mk [] [] [] [] [] [] [] [] [] []).refsSubmitted =
      (AgentTrace.mk [] [] [] [] [] [] [] [] [] []).references_to_read.take 8 ∧
    (AgentTrace.mk [] [] [] [] [] [] [] [] [] []).refsSubmitted.length ≤ 8 ∧
    (AgentTrace.mk [] [] [] [] [] [] [] [] [] []).commentaryLookups =
      (AgentTrace.mk [] [] [] [] [] [] [] [] [] []).commentaries_to_read.take 5 ∧
    (AgentTrace.mk [] [] [] [] [] [] [] [] [] []).commentaryLookups.length ≤ 5 ∧
    ∀ p ∈ (AgentTrace.mk [] [] [] [] [] [] [] [] [] []).commentaryReads,
      p.2.length ≤ 2 :=
  agent_phase_bounds
    { connectOk := true,
      semantic_search := fun _ _ => .error "e",
      keywords_search := fun _ _ _ => .error "e",
      read_text := fun _ => .error "e",
      get_commentaries := fun _ => .error "e",
      dumpJson := fun _ => "" } "q"
    (AgentTrace.mk [] [] [] [] [] [] [] [] [] []) rfl

end TorahEval
